import Mathlib

/-!
Shallow embedding of the decon_board display sequencing engine
(drivers/video/fbdev/exynos/dpu_7885/decon_board.c).

C strings are modelled as `List Char` (`CStr`); the NUL terminator is
implicit.  Machine integers: `u64` timestamps and `unsigned int` values are
modelled as `Nat` (the only place a 32-bit wrap is observable is the storage
of a scanned `%d` into an `unsigned int`, modelled explicitly by `u32ofInt`);
C `int` return codes are modelled as `Int` (with `-22` for `-EINVAL`).

External collaborators (device tree, gpiolib, regulator core, pinctrl,
clock) are modelled as oracles in an `Env` structure; every call into a
hardware resolver or actuator is recorded as an `Event`.  `BUG()` is
modelled as the `ExecRes.bug` outcome, and an undefined-behaviour point
(NULL-pointer or error-pointer dereference) as `ExecRes.crash`/
`SubRes.crash`.
-/

/-- C string: the characters before the NUL terminator. -/
abbrev CStr := List Char

/-- `USEC_PER_MSEC` from the kernel headers. -/
def USEC_PER_MSEC : Nat := 1000

/-- `NSEC_PER_MSEC` from the kernel headers. -/
def NSEC_PER_MSEC : Nat := 1000000

/-- `#define SMALL_MSECS (20)` (decon_board.c line 115). -/
def SMALL_MSECS : Nat := 20

/-- `#define MSEC_TO_USEC(ms) (ms * USEC_PER_MSEC)`. -/
def MSEC_TO_USEC (ms : Nat) : Nat := ms * USEC_PER_MSEC

/-- `#define USEC_TO_MSEC(us) (us / USEC_PER_MSEC)`. -/
def USEC_TO_MSEC (us : Nat) : Nat := us / USEC_PER_MSEC

/-- `UINT_MAX`: 2^32 - 1. -/
def UINT_MAX : Nat := 4294967295

/-- Storing a scanned signed value into a C `unsigned int`: two's-complement
wrap modulo 2^32 (`Int.emod` is non-negative for a positive modulus). -/
def u32ofInt (i : Int) : Nat := (i % 4294967296).toNat

/-- Kernel `isspace`: space, \t, \n, \v, \f, \r. -/
def isspaceC (c : Char) : Bool :=
  c = ' ' || c = '\t' || c = '\n' || c = '\x0b' || c = '\x0c' || c = '\r'

/-- Kernel `isdigit`. -/
def isdigitC (c : Char) : Bool := '0' ≤ c && c ≤ '9'

/-- Take a run of at most `w` leading decimal digits. -/
def takeDigits : Nat → CStr → (List Char × CStr)
  | 0, s => ([], s)
  | _, [] => ([], [])
  | w + 1, c :: s =>
    if isdigitC c then
      let (ds, rest) := takeDigits w s
      (c :: ds, rest)
    else ([], c :: s)

/-- Decimal value of a digit list. -/
def digitsVal : List Char → Nat
  | [] => 0
  | c :: ds => (c.toNat - '0'.toNat) * 10 ^ ds.length + digitsVal ds

/-- One `%8d` conversion of kernel `vsscanf`: skip whitespace, optional
sign, then at most 8 characters of sign-plus-digits; fails when no digit
follows.  Returns the parsed value and the unconsumed remainder. -/
def scanInt8 (s : CStr) : Option (Int × CStr) :=
  match s.dropWhile isspaceC with
  | [] => none
  | '-' :: rest =>
    match takeDigits 7 rest with
    | ([], _) => none
    | (ds, rest') => some (-(digitsVal ds : Int), rest')
  | '+' :: rest =>
    match takeDigits 7 rest with
    | ([], _) => none
    | (ds, rest') => some ((digitsVal ds : Int), rest')
  | s' =>
    match takeDigits 8 s' with
    | ([], _) => none
    | (ds, rest') => some ((digitsVal ds : Int), rest')

/-- `sscanf(subinfo, "%8d %8d", &d0, &d1)` (decon_board.c line 413):
returns the conversion count (0, 1 or 2 — two conversion specifiers can
never yield more) and the values stored into the `unsigned int` slots. -/
def sscanf_d_d (s : CStr) : Nat × Option Nat × Option Nat :=
  match scanInt8 s with
  | none => (0, none, none)
  | some (v0, r0) =>
    match scanInt8 r0 with
    | none => (1, some (u32ofInt v0), none)
    | some (v1, _) => (2, some (u32ofInt v0), some (u32ofInt v1))

/-- `sscanf(subinfo, "%s %8d\n", timer_name, &delay)` (decon_board.c line
459): `%s` takes the first whitespace-delimited token, then `%8d`; the
trailing `"\n"` matches optional whitespace and never fails.  Returns the
conversion count and the converted values. -/
def sscanf_s_d (s : CStr) : Nat × Option CStr × Option Int :=
  let s1 := s.dropWhile isspaceC
  let tok := s1.takeWhile (fun c => !isspaceC c)
  if tok = [] then (0, none, none)
  else
    match scanInt8 (s1.dropWhile (fun c => !isspaceC c)) with
    | none => (1, some tok, none)
    | some (v, _) => (2, some tok, some v)

/-- Kernel `kstrtouint(s, 0, &res)`: strict full-string parse with base
auto-detection (leading `0x` hex, leading `0` octal, else decimal), one
trailing newline tolerated, overflow above `UINT_MAX` rejected.  `none`
models a negative error return. -/
def kstrtouint (s : CStr) : Option Nat :=
  let s := if s.getLast? = some '\n' then s.dropLast else s
  let conv : Nat → List Char → Option Nat := fun base ds =>
    if ds = [] then none
    else if ds.all (fun c => isdigitC c && c.toNat - '0'.toNat < base) then
      let v := ds.foldl (fun acc c => acc * base + (c.toNat - '0'.toNat)) 0
      if v ≤ UINT_MAX then some v else none
    else none
  match s with
  | '0' :: 'x' :: ds =>
    if ds.all (fun c => isdigitC c || ('a' ≤ c && c ≤ 'f') || ('A' ≤ c && c ≤ 'F')) ∧ ds ≠ [] then
      let v := ds.foldl (fun acc c =>
        acc * 16 + (if isdigitC c then c.toNat - '0'.toNat
                    else if 'a' ≤ c ∧ c ≤ 'f' then c.toNat - 'a'.toNat + 10
                    else c.toNat - 'A'.toNat + 10)) 0
      if v ≤ UINT_MAX then some v else none
    else none
  | '0' :: ds => if ds = [] then some 0 else conv 8 ds
  | ds => conv 10 ds

/-- The action kind enumeration (decon_board.c lines 146-160). -/
inductive ActionIdx where
  | ACTION_DUMMY
  | ACTION_GPIO_HIGH
  | ACTION_GPIO_LOW
  | ACTION_REGULATOR_ENABLE
  | ACTION_REGULATOR_DISABLE
  | ACTION_DELAY_MDELAY
  | ACTION_DELAY_MSLEEP
  | ACTION_DELAY_USLEEP
  | ACTION_PINCTRL
  | ACTION_TIMER_START
  | ACTION_TIMER_DELAY
  | ACTION_TIMER_CLEAR
deriving DecidableEq, Repr

/-- `struct timer_info` (decon_board.c lines 122-128); `end` is a Lean
keyword, hence `end_`.  All timestamps in nanoseconds. -/
structure timer_info where
  name : CStr
  start : Nat := 0
  end_ : Nat := 0
  now : Nat := 0
  delay : Nat := 0
deriving DecidableEq, Repr

/-- `struct action_info` (decon_board.c lines 130-144).  `kzalloc` yields
the default values.  Resolved handles are abstract: `supply` keeps the
regulator name, `pins_state` the looked-up pinctrl state id, `timer` an
index into the global timer pool. -/
structure action_info where
  type : CStr := []
  subinfo : CStr := []
  desc : Option CStr := none
  idx : ActionIdx := .ACTION_DUMMY
  gpio : Int := 0
  delay0 : Nat := 0
  delay1 : Nat := 0
  supply : Option CStr := none
  pins_state : Option Nat := none
  timer : Option Nat := none
deriving DecidableEq, Repr

/-- The all-zero placeholder produced by a bare `kzalloc` in `make_list`. -/
def dummyAction : action_info := {}

/-- `struct dt_node_info`: one named cached sequence. -/
structure dt_node_info where
  name : CStr
  acts : List action_info
deriving DecidableEq, Repr

/-- The process-wide mutable state: the `dt_nodes` sequence cache, the pool
of every `timer_info` ever allocated (actions point into it by index; an
entry not referenced by any cached action is unreachable for `find_timer`,
exactly like a leaked allocation), and the tick counter feeding the
`local_clock()` oracle. -/
structure BoardState where
  dt_nodes : List dt_node_info := []
  timers : List timer_info := []
  tick : Nat := 0
deriving DecidableEq, Repr

/-- Calls into the hardware resolver / actuator collaborators. -/
inductive Event where
  | ev_of_get_named_gpio (name : CStr)
  | ev_regulator_bulk_get (name : CStr)
  | ev_devm_pinctrl_get (dev : CStr)
  | ev_pinctrl_lookup_state (name : CStr)
  | ev_gpio_request_one (gpio : Int) (high : Bool)
  | ev_gpio_free (gpio : Int)
  | ev_regulator_enable (name : CStr)
  | ev_regulator_disable (name : CStr)
  | ev_mdelay (ms : Nat)
  | ev_msleep (ms : Nat)
  | ev_usleep_range (lo hi : Nat)
  | ev_pinctrl_select_state (state : Nat)
deriving DecidableEq, Repr

/-- Build-time hardware-resolver calls, as opposed to execution-time
actuator calls. -/
def Event.isResolve : Event → Bool
  | .ev_of_get_named_gpio _ => true
  | .ev_regulator_bulk_get _ => true
  | .ev_devm_pinctrl_get _ => true
  | .ev_pinctrl_lookup_state _ => true
  | _ => false

/-- A device-tree subnode: its `type` string list (`none` when the property
is absent, making `of_property_count_strings` negative) and its optional
`desc` list. -/
structure NodeProps where
  types : Option (List CStr) := none
  descs : Option (List CStr) := none
deriving DecidableEq

/-- The external collaborators: device-tree reader, hardware resolvers,
hardware actuators and the clock.  `lcdtype` is the global hardware-variant
identifier. -/
structure Env where
  lcdtype : Nat
  rootFound : Bool := true
  findNode : CStr → Option NodeProps := fun _ => none
  of_get_named_gpio : CStr → Int := fun _ => 0
  regulator_bulk_get : CStr → Int := fun _ => 0
  of_find_device_by_node : Option CStr := none
  devm_pinctrl_get_ok : Bool := true
  pinctrl_lookup_state : CStr → Option Nat := fun _ => none
  gpio_request_one : Int → Int := fun _ => 0
  regulator_enable : CStr → Int := fun _ => 0
  regulator_disable : CStr → Int := fun _ => 0
  clock : Nat → Nat := fun _ => 0

/-- Outcome of `make_list` / `do_list` / `run_list`: a normal return with
the C return code, a `BUG()` abort, or undefined behaviour (invalid
pointer dereference). -/
inductive ExecRes where
  | ret (r : Int) (st : BoardState) (ev : List Event)
  | bug (st : BoardState) (ev : List Event)
  | crash (ev : List Event)
deriving DecidableEq, Repr

/-- Outcome of `decide_subinfo`: the C return code plus the updated action
and state, or undefined behaviour. -/
inductive SubRes where
  | ok (ret : Int) (a : action_info) (st : BoardState) (ev : List Event)
  | crash (ev : List Event)
deriving DecidableEq, Repr

/-- `action_list` (decon_board.c lines 162-174), in loop order
`ACTION_GPIO_HIGH .. ACTION_TIMER_CLEAR`. -/
def action_list : List (ActionIdx × CStr) :=
  [(.ACTION_GPIO_HIGH, "gpio,high".toList),
   (.ACTION_GPIO_LOW, "gpio,low".toList),
   (.ACTION_REGULATOR_ENABLE, "regulator,enable".toList),
   (.ACTION_REGULATOR_DISABLE, "regulator,disable".toList),
   (.ACTION_DELAY_MDELAY, "delay,mdelay".toList),
   (.ACTION_DELAY_MSLEEP, "delay,msleep".toList),
   (.ACTION_DELAY_USLEEP, "delay,usleep".toList),
   (.ACTION_PINCTRL, "pinctrl".toList),
   (.ACTION_TIMER_START, "timer,start".toList),
   (.ACTION_TIMER_DELAY, "timer,delay".toList),
   (.ACTION_TIMER_CLEAR, "timer,clear".toList)]

/-- `decide_type` (decon_board.c lines 322-353).  `STRNEQ(a, b)` is
`strncmp(a, b, strlen(a)) == 0`, i.e. `a` is a prefix of `b`.  A NULL or
empty type returns 0 without touching `action->idx`; an unmatched type
yields `ACTION_DUMMY` and `-EINVAL`. -/
def decide_type (a : action_info) : Int × action_info :=
  if a.type = [] then (0, a)
  else
    let idx :=
      if "pinctrl".toList.isPrefixOf a.type then ActionIdx.ACTION_PINCTRL
      else
        match action_list.find? (fun p => p.2.isPrefixOf a.type) with
        | some p => p.1
        | none => .ACTION_DUMMY
    if idx = .ACTION_DUMMY then (-22, { a with idx := .ACTION_DUMMY })
    else (0, { a with idx := idx })

/-- `gpio_is_valid`: non-negative and below `ARCH_NR_GPIOS` (512). -/
def gpio_is_valid (g : Int) : Bool := 0 ≤ g && g < 512

/-- The scan part of `find_timer` (decon_board.c lines 299-313): the first
action with a `"timer"`-prefixed type and a non-NULL `timer` whose name
matches, over one cached action list. -/
def findTimerInActs (timers : List timer_info) (nm : CStr) : List action_info → Option Nat
  | [] => none
  | a :: rest =>
    if "timer".toList.isPrefixOf a.type then
      match a.timer with
      | some i =>
        match timers.get? i with
        | some t => if t.name = nm then some i else findTimerInActs timers nm rest
        | none => findTimerInActs timers nm rest
      | none => findTimerInActs timers nm rest
    else findTimerInActs timers nm rest

/-- `find_timer`'s scan over every cached sequence. -/
def findTimerIdx (st : BoardState) (nm : CStr) : Option Nat :=
  let rec go : List dt_node_info → Option Nat
    | [] => none
    | n :: rest =>
      match findTimerInActs st.timers nm n.acts with
      | some i => some i
      | none => go rest
  go st.dt_nodes

/-- `find_timer` (decon_board.c lines 290-320): return the matching timer
reachable through the cached sequences, else allocate a new zeroed
`timer_info` with the given name. -/
def find_timer (st : BoardState) (nm : CStr) : Nat × BoardState :=
  match findTimerIdx st nm with
  | some i => (i, st)
  | none => (st.timers.length, { st with timers := st.timers ++ [{ name := nm }] })

/-- Overwrite the delay of the timer at pool index `i` (the
`action->timer->delay = delay` store in `decide_subinfo`). -/
def setTimerDelay (st : BoardState) (i : Nat) (d : Nat) : BoardState :=
  match st.timers.get? i with
  | some t => { st with timers := st.timers.set i { t with delay := d } }
  | none => st

/-- `decide_subinfo` (decon_board.c lines 355-488).  The `!action` NULL
guard cannot fire (the caller always passes a fresh allocation) and is not
representable here.  Faithful points: the `ACTION_DELAY_USLEEP` branch keeps
the positive `sscanf` count as its return value on success; the
`ACTION_TIMER_START` branch dereferences `action->timer` even when the
`sscanf` failed (`timer` is still NULL then — undefined behaviour,
`SubRes.crash`); the pinctrl branch calls `pinctrl_lookup_state` on the
error pointer when `devm_pinctrl_get` failed (also `SubRes.crash`). -/
def decide_subinfo (env : Env) (st : BoardState) (a : action_info) (ev : List Event) : SubRes :=
  if a.subinfo = [] then .ok (-22) a st ev
  else
    match a.idx with
    | .ACTION_GPIO_HIGH | .ACTION_GPIO_LOW =>
      let g := env.of_get_named_gpio a.subinfo
      let ev := ev ++ [.ev_of_get_named_gpio a.subinfo]
      let a := { a with gpio := g }
      if gpio_is_valid g then .ok 0 a st ev else .ok (-22) a st ev
    | .ACTION_REGULATOR_ENABLE | .ACTION_REGULATOR_DISABLE =>
      let a := { a with supply := some a.subinfo }
      let r := env.regulator_bulk_get a.subinfo
      .ok r a st (ev ++ [.ev_regulator_bulk_get a.subinfo])
    | .ACTION_DELAY_MDELAY | .ACTION_DELAY_MSLEEP =>
      if !isdigitC (a.subinfo.headD ' ') then .ok (-22) a st ev
      else
        match kstrtouint a.subinfo with
        | none => .ok (-22) a st ev
        | some v => .ok 0 { a with delay0 := v } st ev
    | .ACTION_DELAY_USLEEP =>
      if !isdigitC (a.subinfo.headD ' ') then .ok (-22) a st ev
      else
        let (n, d0, d1) := sscanf_d_d a.subinfo
        let a := { a with delay0 := d0.getD a.delay0, delay1 := d1.getD a.delay1 }
        let ret : Int := n
        let (ret, a) :=
          if ret < 0 then ((-22 : Int), a)
          else if ret < 2 then
            let h := a.delay0 + a.delay0 / 2
            let h := if a.delay0 = h then h + 1 else h
            (ret, { a with delay1 := h })
          else if ret > 2 then ((-22 : Int), a)
          else (ret, a)
        let ret :=
          if a.delay0 = 0 ∨ a.delay1 = 0 then (-22 : Int)
          else if a.delay1 < a.delay0 then (-22 : Int)
          else if MSEC_TO_USEC SMALL_MSECS ≤ a.delay0 then (-22 : Int)
          else ret
        .ok ret a st ev
    | .ACTION_PINCTRL =>
      match env.of_find_device_by_node with
      | none => .ok (-22) a st ev
      | some devname =>
        let ev := ev ++ [.ev_devm_pinctrl_get devname]
        if env.devm_pinctrl_get_ok then
          let ev := ev ++ [.ev_pinctrl_lookup_state a.subinfo]
          match env.pinctrl_lookup_state a.subinfo with
          | none => .ok (-22) a st ev
          | some s => .ok 0 { a with pins_state := some s } st ev
        else .crash ev
    | .ACTION_TIMER_START =>
      let (n, nameTok, dInt) := sscanf_s_d a.subinfo
      if n ≠ 2 then .crash ev
      else
        let (i, st) := find_timer st (nameTok.getD [])
        let st := setTimerDelay st i (u32ofInt (dInt.getD 0))
        let a := { a with timer := some i }
        if ((st.timers.get? i).map (fun t => t.delay)).getD 0 < SMALL_MSECS then
          .ok (-22) a st ev
        else .ok 2 a st ev
    | .ACTION_TIMER_DELAY | .ACTION_TIMER_CLEAR =>
      let (i, st) := find_timer st a.subinfo
      .ok 0 { a with timer := some i } st ev
    | .ACTION_DUMMY => .ok (-22) a st ev

/-- The skip condition of the build loop (decon_board.c line 533):
`!lcdtype && !STRNEQ("delay", type) && !STRNEQ("timer", type)`. -/
def skip_pair (env : Env) (t : CStr) : Bool :=
  env.lcdtype == 0 && !"delay".toList.isPrefixOf t && !"timer".toList.isPrefixOf t

/-- `list_add_tail(&action->node, lh)`: append an action to the cached
sequence with the given name. -/
def appendAct (st : BoardState) (name : CStr) (a : action_info) : BoardState :=
  { st with dt_nodes :=
      st.dt_nodes.map (fun n => if n.name = name then { n with acts := n.acts ++ [a] } else n) }

/-- Register a fresh empty sequence at the end of `dt_nodes` (the creation
half of `find_list`). -/
def pushNode (st : BoardState) (name : CStr) : BoardState :=
  { st with dt_nodes := st.dt_nodes ++ [{ name := name, acts := [] }] }

/-- Exact-name lookup over the sequence cache (the scan half of
`find_list`, via `STREQ`). -/
def lookupNode (st : BoardState) (name : CStr) : Option dt_node_info :=
  st.dt_nodes.find? (fun n => n.name == name)

/-- `of_property_count_strings`: negative error when the property is
absent, else the number of strings. -/
def countStrings : Option (List CStr) → Int
  | none => -22
  | some l => l.length

/-- The `(type, subinfo, desc)` triples the build loop iterates over:
pair `i` reads `type` strings `2i` and `2i+1`; a `desc` is attached only
when the `desc` string count equals the (halved) pair count. -/
def pairsOf (np : NodeProps) : List (CStr × CStr × Option CStr) :=
  match np.types with
  | none => []
  | some ts =>
    let count := ts.length / 2
    (List.range count).map fun i =>
      (ts.getD (2 * i) [], ts.getD (2 * i + 1) [],
       if countStrings np.descs = (count : Int) then (np.descs.getD []).get? i else none)

/-- The `for` loop of `make_list` (decon_board.c lines 529-561), including
the post-loop `if (ret < 0) { kfree(action); BUG(); }`: a pair is skipped
under `skip_pair`; otherwise a fresh zeroed action is typed and resolved,
and the first failure frees the failing action (it is simply not appended)
and aborts with `BUG()`, leaving every previously appended action in the
cached list.  `lastRet` tracks the C `ret` variable across iterations; on
normal completion it is `make_list`'s return value. -/
def make_loop (env : Env) (name : CStr) : BoardState → List Event → Int →
    List (CStr × CStr × Option CStr) → ExecRes
  | st, ev, lastRet, [] => .ret lastRet st ev
  | st, ev, lastRet, (t, s, d) :: rest =>
    if skip_pair env t then make_loop env name st ev lastRet rest
    else
      let a0 : action_info := { type := t, subinfo := s }
      let (r1, a1) := decide_type a0
      if r1 < 0 then .bug st ev
      else
        match decide_subinfo env st a1 ev with
        | .crash ev' => .crash ev'
        | .ok r2 a2 st2 ev2 =>
          if r2 < 0 then .bug st2 ev2
          else make_loop env name (appendAct st2 name { a2 with desc := d }) ev2 r2 rest

/-- `make_list` (decon_board.c lines 490-562).  The three dummy paths
(missing `decon_board` root, missing subnode, and a negative / zero / odd
`type` string count) append one zeroed placeholder action and return
`-EINVAL` without `BUG()`. -/
def make_list (env : Env) (st : BoardState) (name : CStr) (ev : List Event) : ExecRes :=
  if env.rootFound = false then .ret (-22) (appendAct st name dummyAction) ev
  else
    match env.findNode name with
    | none => .ret (-22) (appendAct st name dummyAction) ev
    | some np =>
      let count := countStrings np.types
      if count < 0 ∨ count = 0 ∨ count % 2 ≠ 0 then
        .ret (-22) (appendAct st name dummyAction) ev
      else make_loop env name st ev 0 (pairsOf np)

/-- The `ACTION_TIMER_DELAY` case of `do_list` (decon_board.c lines
610-629), including its fall-through into `ACTION_TIMER_CLEAR`: record
`now`; never-started timer (`end == 0`) sleeps the full configured delay;
`end > now` computes the microsecond remainder and — unless it is zero or
above `UINT_MAX`, where the `break` also skips the fall-through clear —
sleeps it with `usleep_range` below 20 ms and `msleep` otherwise; an
elapsed window does not sleep.  Returns the updated timer and the sleep
events performed. -/
def action_timer_delay (t : timer_info) (clk : Nat) : timer_info × List Event :=
  let t := { t with now := clk }
  if t.end_ = 0 then ({ t with end_ := 0 }, [.ev_msleep t.delay])
  else if t.now < t.end_ then
    let us_delta := (t.end_ - t.now) / 1000
    if us_delta = 0 ∨ UINT_MAX < us_delta then (t, [])
    else if us_delta < MSEC_TO_USEC SMALL_MSECS then
      ({ t with end_ := 0 }, [.ev_usleep_range us_delta (us_delta + us_delta / 2)])
    else ({ t with end_ := 0 }, [.ev_msleep (USEC_TO_MSEC us_delta)])
  else ({ t with end_ := 0 }, [])

/-- One switch arm of `do_list` (decon_board.c lines 571-636).  `some r`
in the first component models an assignment to the C `ret` variable (only
the gpio, regulator and default arms assign it).  A NULL `supply`,
`pins_state` or `timer` dereference is undefined behaviour. -/
def do_step (env : Env) (st : BoardState) (a : action_info) (ev : List Event) :
    Option (Option Int × BoardState × List Event) :=
  match a.idx with
  | .ACTION_GPIO_HIGH =>
    let r := env.gpio_request_one a.gpio
    some (some r, st, ev ++ [.ev_gpio_request_one a.gpio true, .ev_gpio_free a.gpio])
  | .ACTION_GPIO_LOW =>
    let r := env.gpio_request_one a.gpio
    some (some r, st, ev ++ [.ev_gpio_request_one a.gpio false, .ev_gpio_free a.gpio])
  | .ACTION_REGULATOR_ENABLE =>
    match a.supply with
    | none => none
    | some s => some (some (env.regulator_enable s), st, ev ++ [.ev_regulator_enable s])
  | .ACTION_REGULATOR_DISABLE =>
    match a.supply with
    | none => none
    | some s => some (some (env.regulator_disable s), st, ev ++ [.ev_regulator_disable s])
  | .ACTION_DELAY_MDELAY => some (none, st, ev ++ [.ev_mdelay a.delay0])
  | .ACTION_DELAY_MSLEEP => some (none, st, ev ++ [.ev_msleep a.delay0])
  | .ACTION_DELAY_USLEEP => some (none, st, ev ++ [.ev_usleep_range a.delay0 a.delay1])
  | .ACTION_PINCTRL =>
    match a.pins_state with
    | none => none
    | some s => some (none, st, ev ++ [.ev_pinctrl_select_state s])
  | .ACTION_TIMER_START =>
    match a.timer with
    | none => none
    | some i =>
      match st.timers.get? i with
      | none => none
      | some t =>
        let clk := env.clock st.tick
        let t' := { t with start := clk, end_ := clk + t.delay * NSEC_PER_MSEC }
        some (none, { st with timers := st.timers.set i t', tick := st.tick + 1 }, ev)
  | .ACTION_TIMER_DELAY =>
    match a.timer with
    | none => none
    | some i =>
      match st.timers.get? i with
      | none => none
      | some t =>
        let clk := env.clock st.tick
        let (t', evs) := action_timer_delay t clk
        some (none, { st with timers := st.timers.set i t', tick := st.tick + 1 }, ev ++ evs)
  | .ACTION_TIMER_CLEAR =>
    match a.timer with
    | none => none
    | some i =>
      match st.timers.get? i with
      | none => none
      | some t =>
        some (none, { st with timers := st.timers.set i { t with end_ := 0 } }, ev)
  | .ACTION_DUMMY => some (none, st, ev)

/-- The action loop of `do_list` plus the post-loop
`if (ret < 0) BUG()`. -/
def do_loop (env : Env) : BoardState → List Event → Int → List action_info → ExecRes
  | st, ev, ret, [] => if ret < 0 then .bug st ev else .ret ret st ev
  | st, ev, ret, a :: rest =>
    match do_step env st a ev with
    | none => .crash ev
    | some (upd, st', ev') => do_loop env st' ev' (upd.getD ret) rest

/-- `do_list` (decon_board.c lines 564-643). -/
def do_list (env : Env) (st : BoardState) (acts : List action_info) (ev : List Event) : ExecRes :=
  do_loop env st ev 0 acts

/-- `run_list` (decon_board.c lines 670-681): `find_list` returns the
cached sequence, creating an empty one on first reference; an empty list is
built via `make_list` (whose return value is ignored, and `dump_list` only
logs); the list is then always executed via `do_list`. -/
def run_list (env : Env) (st : BoardState) (name : CStr) : ExecRes :=
  let st1 := if (lookupNode st name).isSome then st else pushNode st name
  let acts := ((lookupNode st1 name).map (fun n => n.acts)).getD []
  if acts.isEmpty then
    match make_list env st1 name [] with
    | .ret _ st2 ev2 => do_list env st2 (((lookupNode st2 name).map (fun n => n.acts)).getD []) ev2
    | .bug st2 ev2 => .bug st2 ev2
    | .crash ev2 => .crash ev2
  else do_list env st1 acts []

/-- `List.isPrefixOf` agrees with `<+:` (restated locally over `CStr`). -/
lemma isPre_iff {l1 l2 : CStr} : l1.isPrefixOf l2 = true ↔ l1 <+: l2 :=
  List.isPrefixOf_iff_prefix

/-- If `q` is a prefix of `t`, no longer string that does not extend `q`
can be a prefix of `t`. -/
lemma pre_false {p q t : CStr} (hq : q.isPrefixOf t = true)
    (hpq : q.isPrefixOf p = false) (hlen : q.length ≤ p.length) :
    p.isPrefixOf t = false := by
  by_contra h
  rw [Bool.not_eq_false] at h
  have h3 : q <+: p :=
    List.prefix_of_prefix_length_le (isPre_iff.mp hq) (isPre_iff.mp h) hlen
  rw [← isPre_iff] at h3
  rw [hpq] at h3
  exact Bool.false_ne_true h3

/-- A cached sequence looked up by name has that name. -/
lemma lookupNode_name {st : BoardState} {name : CStr} {n : dt_node_info}
    (h : lookupNode st name = some n) : n.name = name := by
  have := List.find?_some h
  rwa [beq_iff_eq] at this

/-- `find?` after the update map of `appendAct`, found case. -/
lemma find?_map_upd (name : CStr) (a : action_info) (l : List dt_node_info) (n : dt_node_info)
    (h : l.find? (fun x => x.name == name) = some n) :
    (l.map (fun x => if x.name = name then { x with acts := x.acts ++ [a] } else x)).find?
      (fun x => x.name == name) = some { name := n.name, acts := n.acts ++ [a] } := by
  induction l with
  | nil => simp at h
  | cons x xs ih =>
    by_cases hx : x.name = name
    · rw [List.find?_cons_of_pos _ (by simp [hx])] at h
      cases h
      simp only [List.map_cons, if_pos hx]
      rw [List.find?_cons_of_pos _ (by simp [hx])]
    · rw [List.find?_cons_of_neg _ (by simp [hx])] at h
      simp only [List.map_cons, if_neg hx]
      rw [List.find?_cons_of_neg _ (by simp [hx])]
      exact ih h

/-- `find?` after the update map of `appendAct`, absent case. -/
lemma find?_map_none (name : CStr) (a : action_info) (l : List dt_node_info)
    (h : l.find? (fun x => x.name == name) = none) :
    (l.map (fun x => if x.name = name then { x with acts := x.acts ++ [a] } else x)).find?
      (fun x => x.name == name) = none := by
  induction l with
  | nil => simp
  | cons x xs ih =>
    by_cases hx : x.name = name
    · rw [List.find?_cons_of_pos _ (by simp [hx])] at h
      cases h
    · rw [List.find?_cons_of_neg _ (by simp [hx])] at h
      simp only [List.map_cons, if_neg hx]
      rw [List.find?_cons_of_neg _ (by simp [hx])]
      exact ih h

/-- Registering a fresh sequence makes it visible, empty. -/
lemma lookupNode_pushNode {st : BoardState} {name : CStr}
    (h : lookupNode st name = none) :
    lookupNode (pushNode st name) name = some { name := name, acts := [] } := by
  unfold lookupNode pushNode at *
  rw [List.find?_append, h]
  simp

/-- Appending an action to a cached sequence updates exactly that
sequence. -/
lemma lookupNode_appendAct {st : BoardState} {name : CStr} {n : dt_node_info}
    (a : action_info) (h : lookupNode st name = some n) :
    lookupNode (appendAct st name a) name = some { name := n.name, acts := n.acts ++ [a] } := by
  unfold lookupNode appendAct at *
  exact find?_map_upd name a st.dt_nodes n h

/-- Appending to an unknown name changes no lookup of that name. -/
lemma lookupNode_appendAct_none {st : BoardState} {name : CStr}
    (a : action_info) (h : lookupNode st name = none) :
    lookupNode (appendAct st name a) name = none := by
  unfold lookupNode appendAct at *
  exact find?_map_none name a st.dt_nodes h

/-- `find_timer` touches only the timer pool. -/
lemma find_timer_dt_nodes (st : BoardState) (nm : CStr) :
    (find_timer st nm).2.dt_nodes = st.dt_nodes := by
  unfold find_timer
  cases findTimerIdx st nm <;> rfl

/-- `setTimerDelay` touches only the timer pool. -/
lemma setTimerDelay_dt_nodes (st : BoardState) (i d : Nat) :
    (setTimerDelay st i d).dt_nodes = st.dt_nodes := by
  unfold setTimerDelay
  cases st.timers.get? i <;> rfl

/-- `decide_subinfo` never appends actions (its only state effect is on
the timer pool) and never changes the action kind decided before it. -/
lemma decide_subinfo_ok {env : Env} {st : BoardState} {a : action_info}
    {ev : List Event} {r : Int} {a' : action_info} {st' : BoardState} {ev' : List Event}
    (h : decide_subinfo env st a ev = .ok r a' st' ev') :
    st'.dt_nodes = st.dt_nodes ∧ a'.idx = a.idx := by
  cases hidx : a.idx <;>
    simp only [decide_subinfo, hidx] at h <;>
    repeat' split at h
  all_goals cases h
  all_goals exact ⟨by simp [find_timer_dt_nodes, setTimerDelay_dt_nodes], by simp [hidx]⟩

/-- The sleep events of a timer-await are actuator events, never resolver
calls. -/
lemma action_timer_delay_no_resolve (t : timer_info) (clk : Nat) :
    ((action_timer_delay t clk).2).all (fun e => !e.isResolve) = true := by
  simp only [action_timer_delay]
  split_ifs <;> simp [Event.isResolve]

/-- One executor step preserves the sequence cache and emits only
actuator events. -/
lemma do_step_spec {env : Env} {st : BoardState} {a : action_info} {ev : List Event}
    {u : Option Int} {st' : BoardState} {ev' : List Event}
    (h : do_step env st a ev = some (u, st', ev')) :
    st'.dt_nodes = st.dt_nodes ∧
    ∃ ex, ev' = ev ++ ex ∧ ex.all (fun e => !e.isResolve) = true := by
  cases hidx : a.idx <;> simp only [do_step, hidx] at h <;> repeat' split at h
  all_goals cases h
  all_goals refine ⟨rfl, ?_⟩
  case ACTION_DUMMY => exact ⟨[], by simp, rfl⟩
  case ACTION_GPIO_HIGH => exact ⟨_, rfl, by simp [Event.isResolve]⟩
  case ACTION_GPIO_LOW => exact ⟨_, rfl, by simp [Event.isResolve]⟩
  case ACTION_REGULATOR_ENABLE => exact ⟨_, rfl, by simp [Event.isResolve]⟩
  case ACTION_REGULATOR_DISABLE => exact ⟨_, rfl, by simp [Event.isResolve]⟩
  case ACTION_DELAY_MDELAY => exact ⟨_, rfl, by simp [Event.isResolve]⟩
  case ACTION_DELAY_MSLEEP => exact ⟨_, rfl, by simp [Event.isResolve]⟩
  case ACTION_DELAY_USLEEP => exact ⟨_, rfl, by simp [Event.isResolve]⟩
  case ACTION_PINCTRL => exact ⟨_, rfl, by simp [Event.isResolve]⟩
  case ACTION_TIMER_START => exact ⟨[], by simp, rfl⟩
  case ACTION_TIMER_DELAY => exact ⟨_, rfl, action_timer_delay_no_resolve _ _⟩
  case ACTION_TIMER_CLEAR => exact ⟨[], by simp, rfl⟩

/-- The executor loop preserves the sequence cache and emits only
actuator events (on a normal return). -/
lemma do_loop_spec (env : Env) :
    ∀ (acts : List action_info) (st : BoardState) (ev : List Event) (r0 r : Int)
      (st' : BoardState) (ev' : List Event),
      do_loop env st ev r0 acts = .ret r st' ev' →
      st'.dt_nodes = st.dt_nodes ∧
      ∃ ex, ev' = ev ++ ex ∧ ex.all (fun e => !e.isResolve) = true
  | [], st, ev, r0, r, st', ev', h => by
    unfold do_loop at h
    split at h
    · cases h
    · cases h
      exact ⟨rfl, [], by simp, rfl⟩
  | a :: rest, st, ev, r0, r, st', ev', h => by
    unfold do_loop at h
    split at h
    · cases h
    case h_2 u st1 ev1 hstep =>
      obtain ⟨hn, ex1, hev1, hall1⟩ := do_step_spec hstep
      obtain ⟨hn', ex2, hev2, hall2⟩ := do_loop_spec env rest st1 ev1 _ r st' ev' h
      refine ⟨hn'.trans hn, ex1 ++ ex2, ?_, ?_⟩
      · rw [hev2, hev1, List.append_assoc]
      · simp_all

/-- `do_list` on a cached list: same cache afterwards, only actuator
events. -/
lemma do_list_spec {env : Env} {st : BoardState} {acts : List action_info}
    {ev : List Event} {r : Int} {st' : BoardState} {ev' : List Event}
    (h : do_list env st acts ev = .ret r st' ev') :
    st'.dt_nodes = st.dt_nodes ∧
    ∃ ex, ev' = ev ++ ex ∧ ex.all (fun e => !e.isResolve) = true :=
  do_loop_spec env acts st ev 0 r st' ev' h

/-- A list in which every event fails a predicate filters to nil. -/
lemma filter_of_all_not {p : Event → Bool} {l : List Event}
    (h : l.all (fun e => !p e) = true) : l.filter p = [] := by
  simp only [List.filter_eq_nil_iff]
  intro a ha
  have := List.all_eq_true.mp h a ha
  simp_all

/-- `run_list` on a name whose cached list is already non-empty goes
straight to the executor. -/
lemma run_list_cached (env : Env) {st : BoardState} {name : CStr} {n : dt_node_info}
    (hfind : lookupNode st name = some n) (hne : n.acts ≠ []) :
    run_list env st name = do_list env st n.acts [] := by
  unfold run_list
  simp only [hfind, Option.isSome_some, if_true, Option.map_some, Option.getD_some]
  rw [if_neg (by simp [List.isEmpty_iff, hne])]
  simp

/-- Executing the zeroed placeholder action is a pure no-op. -/
lemma do_list_dummy (env : Env) (st : BoardState) (ev : List Event) :
    do_list env st [dummyAction] ev = .ret 0 st ev := rfl

/-- Action kinds an `lcdtype == 0` build may contain. -/
def delay_timer_b : ActionIdx → Bool
  | .ACTION_DELAY_MDELAY | .ACTION_DELAY_MSLEEP | .ACTION_DELAY_USLEEP
  | .ACTION_TIMER_START | .ACTION_TIMER_DELAY | .ACTION_TIMER_CLEAR => true
  | _ => false

/-- A successfully typed action whose type string begins with `"delay"` or
`"timer"` gets a delay or timer kind. -/
lemma decide_type_delay_timer (a : action_info)
    (hp : "delay".toList.isPrefixOf a.type = true ∨ "timer".toList.isPrefixOf a.type = true)
    (hs : ¬(decide_type a).1 < 0) :
    delay_timer_b (decide_type a).2.idx = true := by
  rcases hDT : decide_type a with ⟨r, a'⟩
  rw [hDT] at hs
  simp only at hs ⊢
  rcases hp with hd | ht
  · have hne : a.type ≠ [] := by
      intro h0; rw [h0] at hd; exact absurd hd (by decide)
    have e1 : "gpio,high".toList.isPrefixOf a.type = false := pre_false hd (by decide) (by decide)
    have e2 : "gpio,low".toList.isPrefixOf a.type = false := pre_false hd (by decide) (by decide)
    have e3 : "regulator,enable".toList.isPrefixOf a.type = false := pre_false hd (by decide) (by decide)
    have e4 : "regulator,disable".toList.isPrefixOf a.type = false := pre_false hd (by decide) (by decide)
    have e5 : "pinctrl".toList.isPrefixOf a.type = false := pre_false hd (by decide) (by decide)
    have e6 : "timer,start".toList.isPrefixOf a.type = false := pre_false hd (by decide) (by decide)
    have e7 : "timer,delay".toList.isPrefixOf a.type = false := pre_false hd (by decide) (by decide)
    have e8 : "timer,clear".toList.isPrefixOf a.type = false := pre_false hd (by decide) (by decide)
    cases f1 : "delay,mdelay".toList.isPrefixOf a.type <;>
      cases f2 : "delay,msleep".toList.isPrefixOf a.type <;>
      cases f3 : "delay,usleep".toList.isPrefixOf a.type <;>
      simp only [decide_type, action_list, if_neg hne, e1, e2, e3, e4, e5, e6, e7, e8,
                 f1, f2, f3, List.find?, reduceIte] at hDT <;>
      (try cases hDT) <;> simp_all [delay_timer_b]
  · have hne : a.type ≠ [] := by
      intro h0; rw [h0] at ht; exact absurd ht (by decide)
    have e1 : "gpio,high".toList.isPrefixOf a.type = false := pre_false ht (by decide) (by decide)
    have e2 : "gpio,low".toList.isPrefixOf a.type = false := pre_false ht (by decide) (by decide)
    have e3 : "regulator,enable".toList.isPrefixOf a.type = false := pre_false ht (by decide) (by decide)
    have e4 : "regulator,disable".toList.isPrefixOf a.type = false := pre_false ht (by decide) (by decide)
    have e5 : "pinctrl".toList.isPrefixOf a.type = false := pre_false ht (by decide) (by decide)
    have e6 : "delay,mdelay".toList.isPrefixOf a.type = false := pre_false ht (by decide) (by decide)
    have e7 : "delay,msleep".toList.isPrefixOf a.type = false := pre_false ht (by decide) (by decide)
    have e8 : "delay,usleep".toList.isPrefixOf a.type = false := pre_false ht (by decide) (by decide)
    cases f1 : "timer,start".toList.isPrefixOf a.type <;>
      cases f2 : "timer,delay".toList.isPrefixOf a.type <;>
      cases f3 : "timer,clear".toList.isPrefixOf a.type <;>
      simp only [decide_type, action_list, if_neg hne, e1, e2, e3, e4, e5, e6, e7, e8,
                 f1, f2, f3, List.find?, reduceIte] at hDT <;>
      (try cases hDT) <;> simp_all [delay_timer_b]

/-- Invariant of the build loop under `lcdtype == 0`: if every action
cached under `name` satisfies `delay_timer_b` before the loop, the same
holds after a normal loop completion. -/
lemma make_loop_delay_timer (env : Env) (hl : env.lcdtype = 0) (name : CStr) :
    ∀ (ps : List (CStr × CStr × Option CStr)) (st : BoardState) (ev : List Event)
      (lr r : Int) (st' : BoardState) (ev' : List Event),
      make_loop env name st ev lr ps = .ret r st' ev' →
      (∀ nd, lookupNode st name = some nd → nd.acts.all (fun a => delay_timer_b a.idx) = true) →
      (∀ nd, lookupNode st' name = some nd → nd.acts.all (fun a => delay_timer_b a.idx) = true)
  | [], st, ev, lr, r, st', ev', h, hinv => by
    unfold make_loop at h
    cases h
    exact hinv
  | (t, s, d) :: rest, st, ev, lr, r, st', ev', h, hinv => by
    unfold make_loop at h
    split at h
    · exact make_loop_delay_timer env hl name rest st ev lr r st' ev' h hinv
    case isFalse hskip =>
      simp only [] at h
      rcases hDT : decide_type { type := t, subinfo := s } with ⟨r1, a1⟩
      rw [hDT] at h
      simp only at h
      split at h
      · cases h
      · rcases hDS : decide_subinfo env st a1 ev with ⟨r2, a2, st2, ev2⟩ | ev2
        · rw [hDS] at h
          simp only at h
          split at h
          · cases h
          case isFalse hr2 =>
            refine make_loop_delay_timer env hl name rest _ _ _ r st' ev' h ?_
            intro nd hnd
            obtain ⟨hdtn, hidx2⟩ := decide_subinfo_ok hDS
            have hpre : "delay".toList.isPrefixOf t = true ∨ "timer".toList.isPrefixOf t = true := by
              unfold skip_pair at hskip
              simp [hl] at hskip
              by_cases h1 : "delay".toList.isPrefixOf t = true
              · exact Or.inl h1
              · refine Or.inr ?_
                rw [isPre_iff]
                refine hskip ?_
                rw [← Bool.not_eq_true, isPre_iff]
                simpa using h1
            have hgood : delay_timer_b a2.idx = true := by
              rw [hidx2]
              have := decide_type_delay_timer { type := t, subinfo := s } hpre
                (by rw [hDT]; rename_i hr1; simpa using hr1)
              rwa [hDT] at this
            have hlook2 : lookupNode st2 name = lookupNode st name := by
              unfold lookupNode
              rw [hdtn]
            rcases hcase : lookupNode st name with _ | nd0
            · rw [← hlook2] at hcase
              rw [lookupNode_appendAct_none _ hcase] at hnd
              cases hnd
            · rw [← hlook2] at hcase
              rw [lookupNode_appendAct _ hcase] at hnd
              cases hnd
              rw [hlook2] at hcase
              have := hinv nd0 hcase
              simp_all
        · rw [hDS] at h
          simp only at h
          cases h

/-- A generic environment fixture for concrete evaluations that do not
consult the collaborators. -/
def env_fix : Env := { lcdtype := 1 }

/-- C1 counterexample: a started timer awaited 500 ns before its target
end time.  `now` is strictly before `target_end_time` and the remainder is
far below 20 ms, so the claim prescribes a ranged micro-sleep of the
remaining duration; the code computes `us_delta = 0`, takes the early
`break` and performs no sleep at all. -/
theorem C1_await_subms_remainder_no_sleep :
    (500 : Nat) <
      ({ name := "loading".toList, end_ := 1000, delay := 300 } : timer_info).end_
  ∧ ({ name := "loading".toList, end_ := 1000, delay := 300 } : timer_info).end_ - 500 <
      MSEC_TO_USEC SMALL_MSECS * USEC_PER_MSEC
  ∧ (action_timer_delay { name := "loading".toList, end_ := 1000, delay := 300 } 500).2 = [] := by
  refine ⟨by decide, by decide, by decide⟩

/-- C1 (amended): a Timer-await sleeps the full `configured_delay_ms`
coarsely when `target_end_time` is zero; does not sleep when `now` has
reached `target_end_time`; and when `now` is strictly before
`target_end_time` it sleeps the remaining duration — ranged micro-sleep of
`us_delta = (end-now)/1000` microseconds when that is below 20 ms, coarse
sleep of `us_delta/1000` ms otherwise — EXCEPT when the remainder rounds
to zero whole microseconds or exceeds `UINT_MAX` microseconds, where it
does not sleep (the guarded early `break`). -/
theorem C1_timer_await_sleep_cases (t : timer_info) (clk : Nat) :
    (t.end_ = 0 → (action_timer_delay t clk).2 = [Event.ev_msleep t.delay])
  ∧ (t.end_ ≠ 0 → t.end_ ≤ clk → (action_timer_delay t clk).2 = [])
  ∧ (clk < t.end_ → ((t.end_ - clk) / 1000 = 0 ∨ UINT_MAX < (t.end_ - clk) / 1000) →
      (action_timer_delay t clk).2 = [])
  ∧ (clk < t.end_ → 0 < (t.end_ - clk) / 1000 →
      (t.end_ - clk) / 1000 < MSEC_TO_USEC SMALL_MSECS →
      (action_timer_delay t clk).2 =
        [Event.ev_usleep_range ((t.end_ - clk) / 1000)
          ((t.end_ - clk) / 1000 + (t.end_ - clk) / 1000 / 2)])
  ∧ (clk < t.end_ → MSEC_TO_USEC SMALL_MSECS ≤ (t.end_ - clk) / 1000 →
      (t.end_ - clk) / 1000 ≤ UINT_MAX →
      (action_timer_delay t clk).2 = [Event.ev_msleep (USEC_TO_MSEC ((t.end_ - clk) / 1000))]) := by
  have h20 : MSEC_TO_USEC SMALL_MSECS = 20000 := rfl
  have hum : UINT_MAX = 4294967295 := rfl
  refine ⟨fun h1 => ?_, fun h1 h2 => ?_, fun h1 h2 => ?_, fun h1 h2 h3 => ?_, fun h1 h2 h3 => ?_⟩ <;>
    simp only [action_timer_delay] <;> split_ifs <;> simp_all <;> omega

/-- C1 witness: a timer started with 300 ms delay at t = 0 and awaited at
t = 290 ms sleeps with `usleep_range(10000, 15000)`; awaited at t = 310 ms
it performs no sleep. -/
theorem C1_timer_await_sleep_cases_witness :
    (action_timer_delay { name := "loading".toList, start := 0, end_ := 300000000, delay := 300 }
        290000000).2 = [Event.ev_usleep_range 10000 15000]
  ∧ (action_timer_delay { name := "loading".toList, start := 0, end_ := 300000000, delay := 300 }
        310000000).2 = [] := by
  constructor
  · have h := (C1_timer_await_sleep_cases
      { name := "loading".toList, start := 0, end_ := 300000000, delay := 300 } 290000000).2.2.2.1
      (by decide) (by decide) (by decide)
    simpa using h
  · exact (C1_timer_await_sleep_cases
      { name := "loading".toList, start := 0, end_ := 300000000, delay := 300 } 310000000).2.1
      (by decide) (by decide)

/-- C3 counterexample: awaiting a started timer 500 ns before its target
end time takes the guarded early `break`, which skips the fall-through
into Timer-clear — `target_end_time` stays 2000, not zero, contradicting
the claimed unconditional clear. -/
theorem C3_await_clear_skipped :
    (action_timer_delay { name := "loading".toList, end_ := 2000, delay := 300 } 1500).1.end_ = 2000
  ∧ (action_timer_delay { name := "loading".toList, end_ := 2000, delay := 300 } 1500).1.end_ ≠ 0 := by
  refine ⟨by decide, by decide⟩

/-- C3 (amended): after a Timer-await the timer's `target_end_time` is
cleared to zero by the fall-through into Timer-clear in every case EXCEPT
when the timer was started, `now` is strictly before `target_end_time`,
and the microsecond remainder rounds to zero or exceeds `UINT_MAX`: there
the early `break` leaves `target_end_time` unchanged. -/
theorem C3_timer_await_clear_cases (t : timer_info) (clk : Nat) :
    (action_timer_delay t clk).1.end_ =
      if t.end_ ≠ 0 ∧ clk < t.end_ ∧
          ((t.end_ - clk) / 1000 = 0 ∨ UINT_MAX < (t.end_ - clk) / 1000)
      then t.end_ else 0 := by
  simp only [action_timer_delay]
  split_ifs <;> simp_all

/-- C10: executing a list holding only the zeroed placeholder action left
by a failed build performs no hardware side effect (no events), raises no
error (return 0, no `BUG()`), and never reaches the executor's fatal
default branch: `ACTION_DUMMY` is an explicit no-op case. -/
theorem C10_dummy_placeholder_noop (env : Env) (st : BoardState) (ev : List Event) :
    do_list env st [dummyAction] ev = .ret 0 st ev :=
  do_list_dummy env st ev

/-- C6: the claim that a ranged-sleep parameter with more than two
integers is rejected is wrong on this code: `sscanf` with the format
`"%8d %8d"` can return at most 2, so the `ret > 2` rejection branch is
dead.  The parameter `"1000 2000 3000"` is accepted with `lo=1000`,
`hi=2000`, the third integer silently ignored, and the build continues
(return 2 is not a failure). -/
theorem C6_three_ints_not_rejected :
    (∀ s : CStr, (sscanf_d_d s).1 ≤ 2)
  ∧ decide_subinfo env_fix {}
      { type := "delay,usleep".toList, subinfo := "1000 2000 3000".toList,
        idx := .ACTION_DELAY_USLEEP } [] =
    .ok 2 { type := "delay,usleep".toList, subinfo := "1000 2000 3000".toList,
            idx := .ACTION_DELAY_USLEEP, delay0 := 1000, delay1 := 2000 } {} [] := by
  constructor
  · intro s
    unfold sscanf_d_d
    rcases h0 : scanInt8 s with _ | ⟨v0, r0⟩ <;> simp [h0]
    rcases h1 : scanInt8 r0 with _ | ⟨v1, r1⟩ <;> simp [h1]
  · decide

/-- C7: on the malformed Timer-start parameter `"loading"` (delay token
missing) the builder sets `ret = -EINVAL` but then unconditionally reads
`action->timer->delay` while `action->timer` is still NULL — a
NULL-pointer dereference (undefined behaviour), not the failure result the
claim demands.  The well-formed but under-threshold `"loading 10"` is
rejected with `-EINVAL` as claimed. -/
theorem C7_timer_start_malformed_null_deref :
    decide_subinfo env_fix {}
      { type := "timer,start".toList, subinfo := "loading".toList,
        idx := .ACTION_TIMER_START } [] = .crash []
  ∧ decide_subinfo env_fix {}
      { type := "timer,start".toList, subinfo := "loading 10".toList,
        idx := .ACTION_TIMER_START } [] =
    .ok (-22) { type := "timer,start".toList, subinfo := "loading 10".toList,
                idx := .ACTION_TIMER_START, timer := some 0 }
      { dt_nodes := [], timers := [{ name := "loading".toList, delay := 10 }], tick := 0 } [] := by
  refine ⟨by decide, by decide⟩

/-- Modelled from the claim text of C5: the `lo` value a ranged-sleep
parameter string yields (the first scanned integer). -/
def claim_usleep_lo (a : action_info) : Nat :=
  ((sscanf_d_d a.subinfo).2.1).getD a.delay0

/-- Modelled from the claim text of C5: the `hi` value a ranged-sleep
parameter string yields — the second scanned integer, or, when only one
integer is given, `lo + (lo >> 1)` bumped by one when that equals `lo`. -/
def claim_usleep_hi (a : action_info) : Nat :=
  let lo := claim_usleep_lo a
  if (sscanf_d_d a.subinfo).1 < 2 then
    (if lo = lo + lo / 2 then lo + lo / 2 + 1 else lo + lo / 2)
  else ((sscanf_d_d a.subinfo).2.2).getD a.delay1

/-- Modelled from the claim text of C5: the return code the builder is
claimed to produce — negative exactly under the four rejection
conditions, else the (non-negative) scan count. -/
def claim_usleep_ret (a : action_info) : Int :=
  if claim_usleep_lo a = 0 ∨ claim_usleep_hi a = 0 then -22
  else if claim_usleep_hi a < claim_usleep_lo a then -22
  else if MSEC_TO_USEC SMALL_MSECS ≤ claim_usleep_lo a then -22
  else (sscanf_d_d a.subinfo).1

/-- C5: for a ranged-sleep parameter scanning to one or two integers, the
stored bounds are `claim_usleep_lo`/`claim_usleep_hi` (auto-derived `hi =
lo + (lo >> 1)`, bumped by one when equal to `lo`, when only one integer
is given) and the action is rejected exactly when `lo = 0`, `hi = 0`,
`lo > hi`, or `lo ≥ 20000` microseconds. -/
theorem C5_usleep_params (env : Env) (st : BoardState) (a : action_info) (ev : List Event)
    (hidx : a.idx = .ACTION_DELAY_USLEEP)
    (hd : isdigitC (a.subinfo.headD ' ') = true)
    (hn : (sscanf_d_d a.subinfo).1 = 1 ∨ (sscanf_d_d a.subinfo).1 = 2) :
    decide_subinfo env st a ev =
      .ok (claim_usleep_ret a) { a with delay0 := claim_usleep_lo a, delay1 := claim_usleep_hi a } st ev
    ∧ (claim_usleep_ret a < 0 ↔ claim_usleep_lo a = 0 ∨ claim_usleep_hi a = 0 ∨
        claim_usleep_hi a < claim_usleep_lo a ∨ MSEC_TO_USEC SMALL_MSECS ≤ claim_usleep_lo a) := by
  have hne : a.subinfo ≠ [] := by
    intro h0
    rw [h0] at hd
    exact absurd hd (by decide)
  rcases hsc : sscanf_d_d a.subinfo with ⟨n, d0, d1⟩
  rw [hsc] at hn
  simp only at hn
  unfold claim_usleep_ret claim_usleep_hi claim_usleep_lo
  rw [hsc]
  simp only [decide_subinfo, hidx, hd, Bool.not_true, if_neg hne, hsc]
  rcases hn with h1 | h2
  · subst h1
    constructor
    · simp only [Int.reduceLT, reduceIte, Nat.cast_one, Nat.one_lt_ofNat]
      split_ifs <;> simp_all
    · simp only [Nat.cast_one]
      split_ifs <;> simp_all
  · subst h2
    constructor
    · simp only [Int.reduceLT, reduceIte, Nat.cast_ofNat, lt_self_iff_false, gt_iff_lt]
      split_ifs <;> simp_all
    · simp only [Nat.cast_ofNat]
      split_ifs <;> simp_all <;> omega

/-- Ranged-sleep fixture: parameter `"10000"`. -/
def uact1 : action_info :=
  { type := "delay,usleep".toList, subinfo := "10000".toList, idx := .ACTION_DELAY_USLEEP }

/-- Ranged-sleep fixture: parameter `"10000 11000"`. -/
def uact2 : action_info :=
  { type := "delay,usleep".toList, subinfo := "10000 11000".toList, idx := .ACTION_DELAY_USLEEP }

/-- Ranged-sleep fixture: parameter `"0"`. -/
def uact0 : action_info :=
  { type := "delay,usleep".toList, subinfo := "0".toList, idx := .ACTION_DELAY_USLEEP }

/-- Ranged-sleep fixture: parameter `"25000"`. -/
def uact25 : action_info :=
  { type := "delay,usleep".toList, subinfo := "25000".toList, idx := .ACTION_DELAY_USLEEP }

/-- C5 witness: `"10000"` is auto-filled to `lo=10000, hi=15000` and
accepted; `"10000 11000"` is stored unchanged and accepted; `"0"` and
`"25000"` are rejected (negative return). -/
theorem C5_usleep_params_witness :
    decide_subinfo env_fix {} uact1 [] = .ok 1 { uact1 with delay0 := 10000, delay1 := 15000 } {} []
  ∧ decide_subinfo env_fix {} uact2 [] = .ok 2 { uact2 with delay0 := 10000, delay1 := 11000 } {} []
  ∧ claim_usleep_ret uact0 < 0
  ∧ claim_usleep_ret uact25 < 0
  ∧ decide_subinfo env_fix {} uact0 [] =
      .ok (claim_usleep_ret uact0) { uact0 with delay0 := 0, delay1 := 1 } {} []
  ∧ decide_subinfo env_fix {} uact25 [] =
      .ok (claim_usleep_ret uact25) { uact25 with delay0 := 25000, delay1 := 37500 } {} [] := by
  have h1 := C5_usleep_params env_fix {} uact1 [] rfl (by decide) (Or.inl (by decide))
  have h2 := C5_usleep_params env_fix {} uact2 [] rfl (by decide) (Or.inr (by decide))
  have h0 := C5_usleep_params env_fix {} uact0 [] rfl (by decide) (Or.inl (by decide))
  have h25 := C5_usleep_params env_fix {} uact25 [] rfl (by decide) (Or.inl (by decide))
  refine ⟨?_, ?_, ?_, ?_, ?_, ?_⟩
  · have e := h1.1
    rw [show claim_usleep_ret uact1 = 1 from by decide,
        show claim_usleep_lo uact1 = 10000 from by decide,
        show claim_usleep_hi uact1 = 15000 from by decide] at e
    exact e
  · have e := h2.1
    rw [show claim_usleep_ret uact2 = 2 from by decide,
        show claim_usleep_lo uact2 = 10000 from by decide,
        show claim_usleep_hi uact2 = 11000 from by decide] at e
    exact e
  · exact h0.2.mpr (Or.inl (by decide))
  · exact h25.2.mpr (Or.inr (Or.inr (Or.inr (by decide))))
  · have e := h0.1
    rw [show claim_usleep_lo uact0 = 0 from by decide,
        show claim_usleep_hi uact0 = 1 from by decide] at e
    exact e
  · have e := h25.1
    rw [show claim_usleep_lo uact25 = 25000 from by decide,
        show claim_usleep_hi uact25 = 37500 from by decide] at e
    exact e

/-- C2: once the cached list for a name is non-empty, `run_list` goes
straight to the executor (builds happen at most once — never re-attempted
on a non-empty list), and on every such call the executor runs: the call
is exactly `do_list` on the cached actions, its event trace contains no
hardware-resolver call (so a sequence built once and run twice resolves
hardware only during the single build), and the cached list is unchanged
afterwards (every later run executes the same actions again, with full
actuator side effects each time). -/
theorem C2_build_once_execute_every_run (env : Env) (st : BoardState) (name : CStr)
    (n : dt_node_info) (hfind : lookupNode st name = some n) (hne : n.acts ≠ []) :
    run_list env st name = do_list env st n.acts []
  ∧ (∀ r st' ev, run_list env st name = .ret r st' ev →
      ev.filter Event.isResolve = [] ∧ lookupNode st' name = some n) := by
  have h1 := run_list_cached env hfind hne
  refine ⟨h1, ?_⟩
  intro r st' ev hr
  rw [h1] at hr
  obtain ⟨hdt, ex, hev, hall⟩ := do_list_spec hr
  constructor
  · rw [hev]
    simpa using filter_of_all_not hall
  · unfold lookupNode at hfind ⊢
    rw [hdt]
    exact hfind

/-- A cached coarse-sleep action used by the C2 witness. -/
def msleepAct : action_info :=
  { type := "delay,msleep".toList, subinfo := "30".toList,
    idx := .ACTION_DELAY_MSLEEP, delay0 := 30 }

/-- A state whose cache already holds one built sequence, for the C2
witness. -/
def stC2 : BoardState := { dt_nodes := [{ name := "seq2".toList, acts := [msleepAct] }] }

/-- C2 witness: running the already-built sequence `"seq2"` executes the
cached coarse sleep, emits no resolver call, and leaves the cache
unchanged. -/
theorem C2_build_once_execute_every_run_witness :
    run_list env_fix stC2 "seq2".toList = do_list env_fix stC2 [msleepAct] []
  ∧ ([Event.ev_msleep 30].filter Event.isResolve = []
      ∧ lookupNode stC2 "seq2".toList = some { name := "seq2".toList, acts := [msleepAct] }) := by
  have h := C2_build_once_execute_every_run env_fix stC2 "seq2".toList
    { name := "seq2".toList, acts := [msleepAct] } (by decide) (by decide)
  exact ⟨h.1, h.2 0 stC2 [Event.ev_msleep 30] (by decide)⟩

/-- C4: a declared `type` string count that is negative (property absent),
zero, or odd makes the build fail with `-EINVAL`, leaving exactly one
zeroed placeholder action cached under the name; the first run still
executes (the placeholder is a no-op), and every subsequent run goes
straight to the executor without re-attempting parsing or building. -/
theorem C4_invalid_count_inert_placeholder (env : Env) (st : BoardState) (name : CStr)
    (np : NodeProps)
    (hroot : env.rootFound = true)
    (hnode : env.findNode name = some np)
    (hcount : countStrings np.types < 0 ∨ countStrings np.types = 0 ∨
      countStrings np.types % 2 ≠ 0)
    (hfresh : lookupNode st name = none) :
    make_list env (pushNode st name) name [] =
      .ret (-22) (appendAct (pushNode st name) name dummyAction) []
  ∧ lookupNode (appendAct (pushNode st name) name dummyAction) name =
      some { name := name, acts := [dummyAction] }
  ∧ run_list env st name = .ret 0 (appendAct (pushNode st name) name dummyAction) []
  ∧ run_list env (appendAct (pushNode st name) name dummyAction) name =
      do_list env (appendAct (pushNode st name) name dummyAction) [dummyAction] []
  ∧ run_list env (appendAct (pushNode st name) name dummyAction) name =
      .ret 0 (appendAct (pushNode st name) name dummyAction) [] := by
  have hml : make_list env (pushNode st name) name [] =
      .ret (-22) (appendAct (pushNode st name) name dummyAction) [] := by
    simp only [make_list, hroot, hnode]
    rw [if_neg (by simp), if_pos hcount]
  have hp := lookupNode_pushNode hfresh
  have hlook : lookupNode (appendAct (pushNode st name) name dummyAction) name =
      some { name := name, acts := [dummyAction] } := by
    simpa using lookupNode_appendAct dummyAction hp
  have hrun2eq : run_list env (appendAct (pushNode st name) name dummyAction) name =
      do_list env (appendAct (pushNode st name) name dummyAction) [dummyAction] [] := by
    have := run_list_cached env hlook (by simp)
    simpa using this
  refine ⟨hml, hlook, ?_, hrun2eq, ?_⟩
  · unfold run_list
    simp only [hfresh, Option.isSome_none, Bool.false_eq_true, if_false, hp,
      Option.map_some, Option.getD_some, List.isEmpty_nil, if_true, hml, hlook]
    exact do_list_dummy env _ []
  · rw [hrun2eq]
    exact do_list_dummy env _ []

/-- Device-tree fixture for the C4 witness: sequence `"seq4"` declares a
single (odd-count) `type` string. -/
def envC4 : Env :=
  { lcdtype := 1,
    findNode := fun nm =>
      if nm = "seq4".toList then some { types := some ["delay,msleep".toList] } else none }

/-- C4 witness: building `"seq4"` (odd string count) fails into a
placeholder, and both the first and every subsequent run return normally
with no events. -/
theorem C4_invalid_count_inert_placeholder_witness :
    run_list envC4 {} "seq4".toList =
      .ret 0 (appendAct (pushNode {} "seq4".toList) "seq4".toList dummyAction) []
  ∧ run_list envC4 (appendAct (pushNode {} "seq4".toList) "seq4".toList dummyAction)
      "seq4".toList =
      .ret 0 (appendAct (pushNode {} "seq4".toList) "seq4".toList dummyAction) [] := by
  have h := C4_invalid_count_inert_placeholder envC4 {} "seq4".toList
    { types := some ["delay,msleep".toList] } rfl (by decide) (by decide) (by decide)
  exact ⟨h.2.2.1, h.2.2.2.2⟩

/-- Device-tree fixture for C8: sequence `"seq8"` declares a valid
gpio pair followed by a pair of unknown type. -/
def envC8 : Env :=
  { lcdtype := 1,
    findNode := fun nm =>
      if nm = "seq8".toList then
        some { types := some ["gpio,high".toList, "en".toList, "badtype".toList, "x".toList] }
      else none,
    of_get_named_gpio := fun _ => 5 }

/-- Cache state holding an empty `"seq8"` sequence, for C8. -/
def stC8 : BoardState := { dt_nodes := [{ name := "seq8".toList, acts := [] }] }

/-- The resolved first action of the C8 build. -/
def gpioActC8 : action_info :=
  { type := "gpio,high".toList, subinfo := "en".toList, idx := .ACTION_GPIO_HIGH, gpio := 5 }

/-- C8 counterexample: the second pair (`"badtype"`) aborts the build with
`BUG()`, but the first, already-resolved gpio action REMAINS in the cached
list — the partially built list is not discarded, contradicting the
claim. -/
theorem C8_partial_list_retained :
    make_list envC8 stC8 "seq8".toList [] =
      .bug (appendAct stC8 "seq8".toList gpioActC8) [Event.ev_of_get_named_gpio "en".toList]
  ∧ lookupNode (appendAct stC8 "seq8".toList gpioActC8) "seq8".toList =
      some { name := "seq8".toList, acts := [gpioActC8] } := by
  refine ⟨by decide, by decide⟩

/-- C8 (amended): the first invalid action aborts the build — no later
pair is examined (the result is independent of `rest`), the failing action
is freed without ever being appended (the sequence cache is exactly the
one built so far), and the caller is notified by the fatal `BUG()` abort —
but previously resolved actions of the same build remain in the cached
list (the partial list is NOT discarded). -/
theorem C8_first_invalid_aborts_build (env : Env) (name : CStr) (st : BoardState)
    (ev : List Event) (lr : Int) (t s : CStr) (d : Option CStr)
    (hskip : skip_pair env t = false) :
    ((decide_type { type := t, subinfo := s }).1 < 0 →
      ∀ rest, make_loop env name st ev lr ((t, s, d) :: rest) = .bug st ev)
  ∧ (∀ r2 a2 st2 ev2, ¬(decide_type { type := t, subinfo := s }).1 < 0 →
      decide_subinfo env st (decide_type { type := t, subinfo := s }).2 ev = .ok r2 a2 st2 ev2 →
      r2 < 0 →
      ∀ rest, make_loop env name st ev lr ((t, s, d) :: rest) = .bug st2 ev2
        ∧ st2.dt_nodes = st.dt_nodes) := by
  constructor
  · intro hr rest
    unfold make_loop
    rw [if_neg (by simp [hskip])]
    simp only []
    rcases hDT : decide_type { type := t, subinfo := s } with ⟨r1, a1⟩
    rw [hDT] at hr
    simp only at hr
    rw [if_pos hr]
  · intro r2 a2 st2 ev2 hr1 hds hr2 rest
    unfold make_loop
    rw [if_neg (by simp [hskip])]
    simp only []
    rcases hDT : decide_type { type := t, subinfo := s } with ⟨r1, a1⟩
    rw [hDT] at hr1 hds
    simp only at hr1 hds
    rw [if_neg hr1, hds]
    simp only [if_pos hr2]
    exact ⟨trivial, (decide_subinfo_ok hds).1⟩

/-- C8 witness: instantiating the abort characterization at the failing
`"badtype"` pair of the C8 fixture, after its first pair was already
built: the loop aborts with `BUG()` regardless of any remaining pairs. -/
theorem C8_first_invalid_aborts_build_witness :
    make_loop envC8 "seq8".toList (appendAct stC8 "seq8".toList gpioActC8)
      [Event.ev_of_get_named_gpio "en".toList] 0
      [("badtype".toList, "x".toList, none)] =
      .bug (appendAct stC8 "seq8".toList gpioActC8) [Event.ev_of_get_named_gpio "en".toList] := by
  exact (C8_first_invalid_aborts_build envC8 "seq8".toList
    (appendAct stC8 "seq8".toList gpioActC8) [Event.ev_of_get_named_gpio "en".toList] 0
    "badtype".toList "x".toList none (by decide)).1 (by decide) []

/-- C9: while the hardware-variant identifier `lcdtype` is zero, the build
loop skips every declared pair whose type string does not begin with
`"delay"` or `"timer"` (first conjunct: such a pair leaves the loop state
untouched), so a build that completes normally from an empty cached
sequence leaves only delay and timer actions in the built list (second
conjunct). -/
theorem C9_lcdtype_zero_delay_timer_only (env : Env) (hl : env.lcdtype = 0) :
    (∀ name st ev lr t s d rest,
        "delay".toList.isPrefixOf t = false → "timer".toList.isPrefixOf t = false →
        make_loop env name st ev lr ((t, s, d) :: rest) = make_loop env name st ev lr rest)
  ∧ (∀ st name ev r st' ev' nd,
        make_list env st name ev = .ret r st' ev' → 0 ≤ r →
        lookupNode st name = some { name := name, acts := [] } →
        lookupNode st' name = some nd →
        nd.acts.all (fun a => delay_timer_b a.idx) = true) := by
  constructor
  · intro name st ev lr t s d rest h1 h2
    conv_lhs => unfold make_loop
    rw [if_pos (show skip_pair env t = true by simp [skip_pair, hl]; exact ⟨h1, h2⟩)]
  · intro st name ev r st' ev' nd hml hr hn hnd
    unfold make_list at hml
    split at hml
    · cases hml
      exact absurd hr (by decide)
    · split at hml
      · cases hml
        exact absurd hr (by decide)
      · simp only [] at hml
        split at hml
        · cases hml
          exact absurd hr (by decide)
        · refine make_loop_delay_timer env hl name _ st ev 0 r st' ev' hml ?_ nd hnd
          intro nd0 h0
          rw [hn] at h0
          cases h0
          simp

/-- Device-tree fixture for the C9 witness: `lcdtype` is zero and
`"seq9"` declares a gpio pair followed by a coarse-delay pair. -/
def envC9 : Env :=
  { lcdtype := 0,
    findNode := fun nm =>
      if nm = "seq9".toList then
        some { types := some ["gpio,high".toList, "en".toList,
                              "delay,msleep".toList, "30".toList] }
      else none }

/-- Cache state holding an empty `"seq9"` sequence, for C9. -/
def stC9 : BoardState := { dt_nodes := [{ name := "seq9".toList, acts := [] }] }

/-- C9 witness: with `lcdtype = 0` the gpio pair is skipped by the loop,
and the completed build of `"seq9"` caches only the delay action, which
satisfies the delay/timer-only property. -/
theorem C9_lcdtype_zero_delay_timer_only_witness :
    make_loop envC9 "seq9".toList stC9 [] 0
        [("gpio,high".toList, "en".toList, none), ("delay,msleep".toList, "30".toList, none)] =
      make_loop envC9 "seq9".toList stC9 [] 0 [("delay,msleep".toList, "30".toList, none)]
  ∧ ({ name := "seq9".toList, acts := [msleepAct] } : dt_node_info).acts.all
      (fun a => delay_timer_b a.idx) = true := by
  have h := C9_lcdtype_zero_delay_timer_only envC9 rfl
  refine ⟨h.1 "seq9".toList stC9 [] 0 _ _ _ _ (by decide) (by decide), ?_⟩
  exact h.2 stC9 "seq9".toList [] 0 (appendAct stC9 "seq9".toList msleepAct) []
    { name := "seq9".toList, acts := [msleepAct] } (by decide) (by decide) (by decide) (by decide)
